import Mathlib

set_option autoImplicit false

/-
  Verification of the memory-network solver
  (src/src/main/python/dlfa/solvers/memory_network.py).

  The graph-construction code is embedded shallowly: Keras tensors become a
  symbolic inductive type recording each operation the builder performs, the
  per-hop layer caches become explicit state threaded through the getters,
  Python dict/list indexing that can raise becomes Option/Except, and the
  float values flowing through the debug tracer stay abstract (instantiated
  with rationals in concrete evaluations).
-/

namespace MemoryNetwork

/-- Source `_get_knowledge_axis` (line 198): the knowledge dimension of the
background tensor, batch axis included, is axis 1 for this solver. -/
def knowledgeAxis : Nat := 1

/-- Python `lst[i] += 1` on a list of dimensions: in-place increment at index
`i`, an IndexError (here `none`) when the index is out of range. -/
def pyIncAt (l : List Nat) (i : Nat) : Option (List Nat) :=
  if h : i < l.length then some (l.set i (l.get ⟨i, h⟩ + 1)) else none

/-- Python `lst.pop(i)` result on the list (the remaining elements): removes
the element at index `i`, an IndexError (here `none`) when out of range. -/
def pyPopAt (l : List Nat) (i : Nat) : Option (List Nat) :=
  if i < l.length then some (l.eraseIdx i) else none

/-- Source `_get_merged_background_shape` (lines 212-224): given the pair of
input shapes (question shape, background shape), copy the background shape
and add one to its knowledge-axis dimension. -/
def mergedBackgroundShape (input_shapes : List Nat × List Nat) : Option (List Nat) :=
  pyIncAt input_shapes.2 knowledgeAxis

/-- Source `_get_weighted_average_shape` (lines 226-237): given the pair of
input shapes (background shape, attention shape), copy the first shape and
drop its knowledge-axis dimension. -/
def weightedAverageShape (input_shapes : List Nat × List Nat) : Option (List Nat) :=
  pyPopAt input_shapes.1 knowledgeAxis

/-
  Layer caches.  `_get_knowledge_selector` / `_get_memory_updater`
  (lines 239-258) keep one dict per component family, keyed by hop index.
  Each Python layer construction creates a distinct object; object identity
  is modelled by drawing ids from a monotone counter `nextId`.
-/

structure LayerCacheState where
  knowledge_selector_layers : List (Nat × Nat)
  memory_updater_layers : List (Nat × Nat)
  nextId : Nat
  deriving DecidableEq, Repr

/-- Python dict membership/lookup over the association list. -/
def lookupCache (cache : List (Nat × Nat)) (k : Nat) : Option Nat :=
  match cache with
  | [] => none
  | p :: rest => if p.1 = k then some p.2 else lookupCache rest k

/-- State at the end of `__init__` (lines 71, 73): both caches empty. -/
def initialCacheState : LayerCacheState := ⟨[], [], 0⟩

/-- Source `_get_knowledge_selector` (lines 239-248): return the cached layer
for this hop index, constructing and caching a fresh one on a miss. -/
def getKnowledgeSelector (s : LayerCacheState) (layer_num : Nat) : Nat × LayerCacheState :=
  match lookupCache s.knowledge_selector_layers layer_num with
  | some layerId => (layerId, s)
  | none =>
      (s.nextId,
       { s with knowledge_selector_layers :=
                  s.knowledge_selector_layers ++ [(layer_num, s.nextId)],
                nextId := s.nextId + 1 })

/-- Source `_get_memory_updater` (lines 250-258): return the cached layer for
this hop index, constructing and caching a fresh one on a miss. -/
def getMemoryUpdater (s : LayerCacheState) (layer_num : Nat) : Nat × LayerCacheState :=
  match lookupCache s.memory_updater_layers layer_num with
  | some layerId => (layerId, s)
  | none =>
      (s.nextId,
       { s with memory_updater_layers :=
                  s.memory_updater_layers ++ [(layer_num, s.nextId)],
                nextId := s.nextId + 1 })

/-- Invariant of the layer caches: all cached ids are below the fresh-id
counter, and within each family no id is cached under two hop indices. -/
def CacheInv (s : LayerCacheState) : Prop :=
  (∀ p ∈ s.knowledge_selector_layers, p.2 < s.nextId) ∧
  (∀ p ∈ s.memory_updater_layers, p.2 < s.nextId) ∧
  (∀ p ∈ s.knowledge_selector_layers, ∀ q ∈ s.knowledge_selector_layers,
      p.2 = q.2 → p.1 = q.1) ∧
  (∀ p ∈ s.memory_updater_layers, ∀ q ∈ s.memory_updater_layers,
      p.2 = q.2 → p.1 = q.1)

/-- States of the layer caches reachable by the solver: empty after
`__init__`, then grown only through the two getters. -/
inductive Reachable : LayerCacheState → Prop where
  | init : Reachable initialCacheState
  | selectorStep (s : LayerCacheState) (i : Nat) :
      Reachable s → Reachable (getKnowledgeSelector s i).2
  | updaterStep (s : LayerCacheState) (i : Nat) :
      Reachable s → Reachable (getMemoryUpdater s i).2

/-
  Symbolic tensors.  `_build_model` (lines 279-372) wires Keras layers; each
  operation it performs becomes one constructor, carrying the hop index that
  the source embeds in the layer name (the operation is faithful to the
  source line cited on each constructor).
-/

inductive Tensor where
  /-- Input layer from `_get_embedded_sentence_input` (lines 283-286),
  tagged with its name prefix ("sentence" or "background"). -/
  | inputLayer (tag : String)
  /-- Embedding lookup from `_get_embedded_sentence_input` (lines 283-286). -/
  | embedding (t : Tensor)
  /-- Application of the sentence encoder (line 297). -/
  | encoderApp (t : Tensor)
  /-- Application of the TimeDistributed knowledge encoder (lines 296, 298). -/
  | knowledgeEncoderApp (t : Tensor)
  /-- Custom lambda merge stacking the memory on top of the background
  (lines 315-322), named concat_question_with_background_i. -/
  | stackMerge (memory knowledge : Tensor) (i : Nat)
  /-- Dropout regularization with rate 0.2 (line 325). -/
  | dropout (t : Tensor)
  /-- Application of the knowledge-selector layer with cache id
  `layerId` (line 327). -/
  | selectorApp (layerId : Nat) (t : Tensor)
  /-- Weighted-average merge of background with attention (lines 330-338),
  named background_weighted_average_i. -/
  | weightedAverage (knowledge weights : Tensor) (i : Nat)
  /-- Concat merge of memory with attended knowledge (lines 345-348), named
  concat_current_memory_with_background_i. -/
  | updaterInputConcat (memory attended : Tensor) (i : Nat)
  /-- Application of the memory-updater layer with cache id `layerId`
  (line 350). -/
  | updaterApp (layerId : Nat) (t : Tensor)
  /-- Concat merge of question, memory and attended knowledge feeding the
  entailment model (lines 360-363), named concat_entailment_inputs. -/
  | entailmentConcat (question memory attended : Tensor)
  deriving DecidableEq, Repr

/-- Line 297: encoded_question = question_encoder(question_embedding). -/
def encodedQuestionT : Tensor := .encoderApp (.embedding (.inputLayer "sentence"))

/-- Line 298: encoded_knowledge = knowledge_encoder(knowledge_embedding). -/
def encodedKnowledgeT : Tensor := .knowledgeEncoderApp (.embedding (.inputLayer "background"))

/-- One completed iteration of the hop loop (lines 307-350). -/
structure HopRecord where
  hop : Nat
  selectorId : Nat
  updaterId : Nat
  attentionWeights : Tensor
  attendedKnowledge : Tensor
  memoryOut : Tensor
  deriving DecidableEq, Repr

/-- The mutable context of the hop loop: the layer caches, the running
current_memory and attended_knowledge variables, plus instrumentation
recording each completed hop and each getter request. -/
structure BuildCtx where
  cache : LayerCacheState
  currentMemory : Tensor
  attendedKnowledge : Option Tensor
  hops : List HopRecord
  selectorRequests : List Nat
  updaterRequests : List Nat
  deriving DecidableEq, Repr

/-- One iteration of the loop body (lines 307-350) at hop index `i`. -/
def hopStep (encodedKnowledge : Tensor) (ctx : BuildCtx) (i : Nat) : BuildCtx :=
  let merged := Tensor.stackMerge ctx.currentMemory encodedKnowledge i
  let regularized := Tensor.dropout merged
  let sel := getKnowledgeSelector ctx.cache i
  let attention := Tensor.selectorApp sel.1 regularized
  let attended := Tensor.weightedAverage encodedKnowledge attention i
  let updaterInput := Tensor.updaterInputConcat ctx.currentMemory attended i
  let upd := getMemoryUpdater sel.2 i
  let newMemory := Tensor.updaterApp upd.1 updaterInput
  { cache := upd.2
    currentMemory := newMemory
    attendedKnowledge := some attended
    hops := ctx.hops ++ [⟨i, sel.1, upd.1, attention, attended, newMemory⟩]
    selectorRequests := ctx.selectorRequests ++ [i]
    updaterRequests := ctx.updaterRequests ++ [i] }

/-- The fully built graph together with the instrumentation gathered while
building it. -/
structure BuildResult where
  hops : List HopRecord
  selectorRequests : List Nat
  updaterRequests : List Nat
  finalMemory : Tensor
  entailmentInput : Tensor
  cache : LayerCacheState
  deriving DecidableEq, Repr

/-- Source `_build_model` (lines 279-372): encode the two inputs, set
current_memory to the encoded question, run the hop loop
`for i in range(num_memory_layers)`, then concatenate encoded question,
current memory and attended knowledge into the entailment input.  With zero
hops the Python variable attended_knowledge is unbound at line 360
(NameError), modelled as `none`. -/
def buildModel (s0 : LayerCacheState) (num_memory_layers : Nat) : Option BuildResult :=
  let ctx0 : BuildCtx := ⟨s0, encodedQuestionT, none, [], [], []⟩
  let ctx := (List.range num_memory_layers).foldl (hopStep encodedKnowledgeT) ctx0
  match ctx.attendedKnowledge with
  | none => none
  | some attended =>
      some ⟨ctx.hops, ctx.selectorRequests, ctx.updaterRequests,
            ctx.currentMemory,
            Tensor.entailmentConcat encodedQuestionT ctx.currentMemory attended,
            ctx.cache⟩

/-
  Registry lookup and solver construction, `__init__` (lines 60-94).
  The four registries (selectors, updaters, entailment_input_combiners,
  entailment_models) live in the layers package; here they are parameters:
  string-keyed association lists mapping a name to a factory code.  A Python
  dict subscript on a missing key raises KeyError, modelled as `none`
  turning into an error result.
-/

/-- Python dict lookup on a string-keyed registry. -/
def lookupKey {γ : Type} (reg : List (String × γ)) (k : String) : Option γ :=
  match reg with
  | [] => none
  | p :: rest => if p.1 = k then some p.2 else lookupKey rest k

/-- The configuration keys `__init__` consumes (lines 60-94), as handed over
by the argument parser. -/
structure SolverConfig where
  knowledge_selector : String
  hard_memory_selection : Bool
  memory_updater : String
  entailment_input_combiner : String
  entailment_model : String
  entailment_num_hidden_layers : Nat
  entailment_hidden_layer_width : Nat
  entailment_hidden_layer_activation : String
  num_memory_layers : Nat
  embedding_size : Nat
  deriving DecidableEq, Repr

/-- The entailment_args dict assembled at lines 76-82: the three hidden-layer
options, plus answer_dim = embedding_size only for question_answer_mlp. -/
structure EntailmentArgs where
  num_hidden_layers : Nat
  hidden_layer_width : Nat
  hidden_layer_activation : String
  answer_dim : Option Nat
  deriving DecidableEq, Repr

/-- The component state `__init__` leaves behind on success: the four
resolved factory codes, the combiner instantiated with embedding_size
(line 74), the entailment model instantiated with its args (line 83), and
the remaining configuration fields. -/
structure InitializedSolver where
  knowledge_selector : Nat
  hard_memory_selection : Bool
  memory_updater : Nat
  entailment_combiner : Nat × Nat
  entailment_model : Nat × EntailmentArgs
  num_memory_layers : Nat
  deriving DecidableEq, Repr

/-- Source `__init__` (lines 60-94): resolve the four registry keys in
source order (selector line 69, updater line 72, combiner line 74,
entailment model line 83); the first missing key raises KeyError.  No
tensor graph is touched here. -/
def solverInit (selectors updaters entailment_input_combiners entailment_models :
    List (String × Nat)) (cfg : SolverConfig) : Except String InitializedSolver :=
  match lookupKey selectors cfg.knowledge_selector with
  | none => .error ("KeyError: " ++ cfg.knowledge_selector)
  | some sel =>
    match lookupKey updaters cfg.memory_updater with
    | none => .error ("KeyError: " ++ cfg.memory_updater)
    | some upd =>
      match lookupKey entailment_input_combiners cfg.entailment_input_combiner with
      | none => .error ("KeyError: " ++ cfg.entailment_input_combiner)
      | some comb =>
        match lookupKey entailment_models cfg.entailment_model with
        | none => .error ("KeyError: " ++ cfg.entailment_model)
        | some em =>
            .ok ⟨sel, cfg.hard_memory_selection, upd, (comb, cfg.embedding_size),
                 (em, ⟨cfg.entailment_num_hidden_layers,
                       cfg.entailment_hidden_layer_width,
                       cfg.entailment_hidden_layer_activation,
                       if cfg.entailment_model = "question_answer_mlp"
                       then some cfg.embedding_size else none⟩),
                 cfg.num_memory_layers⟩

/-- Constructing the solver and then building its model graph: `_build_model`
(line 280) can only run on a successfully constructed solver, so a failed
registry lookup precludes any graph construction. -/
def buildFromConfig (selectors updaters entailment_input_combiners entailment_models :
    List (String × Nat)) (cfg : SolverConfig) : Except String (Option BuildResult) :=
  match solverInit selectors updaters entailment_input_combiners entailment_models cfg with
  | .error e => .error e
  | .ok solver => .ok (buildModel initialCacheState solver.num_memory_layers)

/-
  Debug tracer, `debug` (lines 428-460).  The trace file is opened at line
  433 and closed at line 460 with no try/finally in between, so the close
  only happens when every record was emitted without an exception; the
  result type records whether the close was reached.  Score and attention
  values stay abstract in `α` (floats in the source; the 4-decimal print
  formatting of line 456 does not affect row structure or count).
-/

/-- One instance of the debug dataset: text, background sentences, label. -/
structure DebugInstance where
  text : String
  background : List String
  label : Bool
  deriving DecidableEq, Repr

/-- One per-sentence line of the trace (line 457): the attention value this
sentence got at every hop, and the sentence itself. -/
structure TraceRow (α : Type) where
  hop_values : List α
  background_sentence : String
  deriving DecidableEq, Repr

/-- One per-instance record of the trace (lines 447-459). -/
structure InstanceTraceRecord (α : Type) where
  sentence : String
  label : Bool
  assigned_score : α
  rows : List (TraceRow α)
  deriving DecidableEq, Repr

/-- Python `values[-m:]` (line 446): the last m elements; `-0` is 0, so for
m = 0 the whole list is kept. -/
def pySliceLastM {α : Type} (m : Nat) (l : List α) : List α :=
  if m = 0 then l else l.drop (l.length - m)

/-- Python `l[i]` for a nonnegative index: the element, or IndexError. -/
def pyGet {α : Type} (l : List α) (i : Nat) : Except String α :=
  match l.get? i with
  | some v => .ok v
  | none => .error "IndexError"

/-- A Python list comprehension over `f`: stops at the first raised error. -/
def exceptMapList {β γ : Type} (f : β → Except String γ) : List β → Except String (List γ)
  | [] => .ok []
  | x :: xs =>
      match f x with
      | .error e => .error e
      | .ok y =>
          match exceptMapList f xs with
          | .error e => .error e
          | .ok ys => .ok (y :: ys)

/-- The row loop of lines 451-458 from index `i` on: stop at the first index
with no attention value in the first hop (lines 452-455), otherwise collect
the value every hop assigned to this sentence (line 456) and emit the row
(line 457). -/
def emitRowsFrom {α : Type} (attention_values : List (List α)) :
    Nat → List String → Except String (List (TraceRow α))
  | _, [] => .ok []
  | i, bg :: rest =>
      match pyGet attention_values 0 with
      | .error e => .error e
      | .ok firstHop =>
          if firstHop.length ≤ i then .ok []
          else
            match exceptMapList (fun values => pyGet values i) attention_values with
            | .error e => .error e
            | .ok vals =>
                match emitRowsFrom attention_values (i + 1) rest with
                | .error e => .error e
                | .ok more => .ok (⟨vals, bg⟩ :: more)

/-- The full row loop of lines 451-458, from index 0. -/
def emitRows {α : Type} (background_info : List String)
    (attention_values : List (List α)) : Except String (List (TraceRow α)) :=
  emitRowsFrom attention_values 0 background_info

/-- The per-instance body of the trace loop (lines 441-459): read the score
at index 1 (line 444), strip padding from each hop of attention values
(line 446), then emit the per-sentence rows. -/
def debugInstanceRecord {α : Type} (inst : DebugInstance) (score : List α)
    (attention_values : List (List α)) : Except String (InstanceTraceRecord α) :=
  match pyGet score 1 with
  | .error e => .error e
  | .ok positive_score =>
      match emitRows inst.background
          (attention_values.map (pySliceLastM inst.background.length)) with
      | .error e => .error e
      | .ok rows => .ok ⟨inst.text, inst.label, positive_score, rows⟩

/-- Python `zip(instances, scores, *attention_outputs)` (lines 439-440):
`attention_outputs` is hop-major (one array per hop, normalized by lines
436-437); the zip stops at the shortest sequence and hands each instance the
list of its per-hop attention values. -/
def pyZipStar {α : Type} : List DebugInstance → List (List α) →
    List (List (List α)) → List (DebugInstance × List α × List (List α))
  | inst :: insts, score :: ss, attention_outputs =>
      if attention_outputs.all (fun hopArr => !hopArr.isEmpty) then
        (inst, score, attention_outputs.map (fun hopArr => hopArr.headD [])) ::
          pyZipStar insts ss (attention_outputs.map List.tail)
      else []
  | _, _, _ => []

/-- Outcome of one `debug` invocation: whether the close at line 460 was
reached, and the records written (or the exception that escaped). -/
structure DebugRunResult (α : Type) where
  file_closed : Bool
  outcome : Except String (List (InstanceTraceRecord α))
  deriving Repr

/-- Whether an Except result is a success. -/
def isOkB {ε γ : Type} : Except ε γ → Bool
  | .ok _ => true
  | .error _ => false

/-- Source `debug` (lines 428-460): open the trace file, loop over the
zipped instances emitting one record each, close the file.  An exception
in the loop propagates before the close statement runs. -/
def debugRun {α : Type} (instances : List DebugInstance) (scores : List (List α))
    (attention_outputs : List (List (List α))) : DebugRunResult α :=
  match exceptMapList (fun t => debugInstanceRecord t.1 t.2.1 t.2.2)
      (pyZipStar instances scores attention_outputs) with
  | .ok records => ⟨true, .ok records⟩
  | .error e => ⟨false, .error e⟩

/-
  Custom objects for model reload, `_get_custom_objects` (lines 160-166).
  The method extends the superclass mapping with the two knowledge-selector
  classes imported at line 10 and nothing else.
-/

/-- The component classes that can appear in the custom-objects mapping.
The selector classes come from line 10 of the source; the dense-concat
memory updater is the updater family named by the spec. -/
inductive ComponentType where
  | dotProductKnowledgeSelector
  | parameterizedKnowledgeSelector
  | denseConcatMemoryUpdater
  | otherComponent (tag : String)
  deriving DecidableEq, Repr

/-- Whether a component class belongs to the memory-updater family. -/
def isMemoryUpdaterType : ComponentType → Bool
  | .denseConcatMemoryUpdater => true
  | _ => false

/-- Modelled from the spec: `NNSolver._get_custom_objects`, the superclass
mapping extended at line 163, is not in the sources; the spec scopes the
registration of memory-network component types to this subclass mapping
(section 6, Model reload) and gives the superclass no memory-network
entries, so the superclass contribution is modelled as empty. -/
def baseCustomObjects : List (String × ComponentType) := []

/-- Source `_get_custom_objects` (lines 160-166): the superclass mapping
plus the two knowledge-selector classes. -/
def getCustomObjects : List (String × ComponentType) :=
  baseCustomObjects ++
    [("DotProductKnowledgeSelector", ComponentType.dotProductKnowledgeSelector),
     ("ParameterizedKnowledgeSelector", ComponentType.parameterizedKnowledgeSelector)]

end MemoryNetwork

namespace MemoryNetwork

/-- Specializing List.foldl to a range that grows by one step. -/
theorem foldl_range_succ {β : Type} (f : β → Nat → β) (n : Nat) (c : β) :
    (List.range (n + 1)).foldl f c = f ((List.range n).foldl f c) n := by
  rw [List.range_succ, List.foldl_append]
  rfl

/-- One hop appends exactly one record, and the loop variables
attended_knowledge and current_memory come from that record. -/
theorem hopStep_spec (ek : Tensor) (c : BuildCtx) (i : Nat) :
    ∃ rec, (hopStep ek c i).hops = c.hops ++ [rec] ∧
      (hopStep ek c i).attendedKnowledge = some rec.attendedKnowledge ∧
      (hopStep ek c i).currentMemory = rec.memoryOut ∧
      rec.hop = i :=
  ⟨_, rfl, rfl, rfl, rfl⟩

/-- The loop requests the knowledge selector once per hop index, in order. -/
theorem hopLoop_selectorRequests (ek : Tensor) (n : Nat) :
    ∀ ctx : BuildCtx, ((List.range n).foldl (hopStep ek) ctx).selectorRequests
      = ctx.selectorRequests ++ List.range n := by
  induction n with
  | zero => intro ctx; simp
  | succ n ih =>
      intro ctx
      rw [foldl_range_succ, List.range_succ]
      simp [hopStep, ih]

/-- The loop requests the memory updater once per hop index, in order. -/
theorem hopLoop_updaterRequests (ek : Tensor) (n : Nat) :
    ∀ ctx : BuildCtx, ((List.range n).foldl (hopStep ek) ctx).updaterRequests
      = ctx.updaterRequests ++ List.range n := by
  induction n with
  | zero => intro ctx; simp
  | succ n ih =>
      intro ctx
      rw [foldl_range_succ, List.range_succ]
      simp [hopStep, ih]

/-- The loop appends one hop record per index, in order. -/
theorem hopLoop_hops_map_hop (ek : Tensor) (n : Nat) :
    ∀ ctx : BuildCtx, ((List.range n).foldl (hopStep ek) ctx).hops.map HopRecord.hop
      = ctx.hops.map HopRecord.hop ++ List.range n := by
  induction n with
  | zero => intro ctx; simp
  | succ n ih =>
      intro ctx
      rw [foldl_range_succ, List.range_succ]
      simp [hopStep, ih]

/-- Extract the hop index baked into an attention-weight tensor through the
name of the stack merge it was computed from. -/
def attnHopIdx : Tensor → Nat
  | .selectorApp _ (.dropout (.stackMerge _ _ i)) => i
  | _ => 0

/-- Every hop record produced by the loop carries an attention tensor whose
embedded hop index is the hop the record belongs to. -/
theorem hopLoop_attn_idx (ek : Tensor) (n : Nat) :
    ∀ ctx : BuildCtx, (∀ r ∈ ctx.hops, attnHopIdx r.attentionWeights = r.hop) →
      ∀ r ∈ ((List.range n).foldl (hopStep ek) ctx).hops,
        attnHopIdx r.attentionWeights = r.hop := by
  induction n with
  | zero => intro ctx h; simpa using h
  | succ n ih =>
      intro ctx h r hr
      rw [foldl_range_succ] at hr
      simp only [hopStep, List.mem_append, List.mem_singleton] at hr
      rcases hr with hr | hr
      · exact ih ctx h r hr
      · subst hr
        rfl

/-- For a nonempty loop, the final context exposes the last hop record. -/
theorem hopLoop_last (ek : Tensor) (n : Nat) (hn : 1 ≤ n) (ctx : BuildCtx) :
    ∃ rec hs, ((List.range n).foldl (hopStep ek) ctx).hops = hs ++ [rec] ∧
      ((List.range n).foldl (hopStep ek) ctx).attendedKnowledge = some rec.attendedKnowledge ∧
      ((List.range n).foldl (hopStep ek) ctx).currentMemory = rec.memoryOut := by
  obtain ⟨m, rfl⟩ : ∃ m, n = m + 1 := ⟨n - 1, by omega⟩
  rw [foldl_range_succ]
  obtain ⟨rec, h1, h2, h3, _⟩ :=
    hopStep_spec ek ((List.range m).foldl (hopStep ek) ctx) m
  exact ⟨rec, _, h1, h2, h3⟩

/-- Claim C2: the merged-background shape function maps background shape
(B, K, D) at knowledge axis 1 to (B, K+1, D), and the weighted-average shape
function maps first input shape (B, K, D) to (B, D), for every B, K, D. -/
theorem shape_functions_correct (B K D : Nat) (q w : List Nat) :
    mergedBackgroundShape (q, [B, K, D]) = some [B, K + 1, D] ∧
    weightedAverageShape ([B, K, D], w) = some [B, D] := by
  constructor
  · simp [mergedBackgroundShape, pyIncAt, knowledgeAxis]
  · simp [weightedAverageShape, pyPopAt, knowledgeAxis]

/-- Claim C1: for every configuration with num_memory_layers = N (N at least
one) and any starting cache state, building the model runs the hop loop
exactly N times, requests the knowledge selector and the memory updater once
per hop index 0..N-1 in order, and produces exactly N attention-weight
tensors, pairwise distinct, one per hop. -/
theorem hop_loop_runs_once_per_layer (N : Nat) (s0 : LayerCacheState) (hN : 1 ≤ N) :
    ∃ r, buildModel s0 N = some r ∧
      r.hops.length = N ∧
      r.hops.map HopRecord.hop = List.range N ∧
      r.selectorRequests = List.range N ∧
      r.updaterRequests = List.range N ∧
      (r.hops.map HopRecord.attentionWeights).length = N ∧
      (r.hops.map HopRecord.attentionWeights).Nodup := by
  unfold buildModel
  obtain ⟨rec, hs, hhops, hatt, hmem⟩ :=
    hopLoop_last encodedKnowledgeT N hN ⟨s0, encodedQuestionT, none, [], [], []⟩
  dsimp only
  rw [hatt]
  refine ⟨_, rfl, ?_, ?_, ?_, ?_, ?_, ?_⟩
  · have := hopLoop_hops_map_hop encodedKnowledgeT N
      ⟨s0, encodedQuestionT, none, [], [], []⟩
    simpa using congrArg List.length this
  · simpa using hopLoop_hops_map_hop encodedKnowledgeT N
      ⟨s0, encodedQuestionT, none, [], [], []⟩
  · simpa using hopLoop_selectorRequests encodedKnowledgeT N
      ⟨s0, encodedQuestionT, none, [], [], []⟩
  · simpa using hopLoop_updaterRequests encodedKnowledgeT N
      ⟨s0, encodedQuestionT, none, [], [], []⟩
  · have := hopLoop_hops_map_hop encodedKnowledgeT N
      ⟨s0, encodedQuestionT, none, [], [], []⟩
    simpa using congrArg List.length this
  · apply List.Nodup.of_map attnHopIdx
    rw [List.map_map]
    have hidx := hopLoop_attn_idx encodedKnowledgeT N
      ⟨s0, encodedQuestionT, none, [], [], []⟩ (by intro r hr; simp at hr)
    have hmapeq :
        (((List.range N).foldl (hopStep encodedKnowledgeT)
            ⟨s0, encodedQuestionT, none, [], [], []⟩).hops).map
          (attnHopIdx ∘ HopRecord.attentionWeights)
        = (((List.range N).foldl (hopStep encodedKnowledgeT)
            ⟨s0, encodedQuestionT, none, [], [], []⟩).hops).map HopRecord.hop := by
      apply List.map_congr_left
      intro r hr
      exact hidx r hr
    rw [hmapeq]
    have := hopLoop_hops_map_hop encodedKnowledgeT N
      ⟨s0, encodedQuestionT, none, [], [], []⟩
    simp only [List.map] at this
    rw [this]
    simpa using List.nodup_range N

/-- Concrete instantiation of the C1 theorem at N = 2 from the initial
cache state. -/
theorem hop_loop_runs_once_per_layer_witness :
    1 ≤ 2 ∧
    ∃ r, buildModel initialCacheState 2 = some r ∧
      r.hops.length = 2 ∧
      r.hops.map HopRecord.hop = List.range 2 ∧
      r.selectorRequests = List.range 2 ∧
      r.updaterRequests = List.range 2 ∧
      (r.hops.map HopRecord.attentionWeights).length = 2 ∧
      (r.hops.map HopRecord.attentionWeights).Nodup :=
  ⟨by decide, hop_loop_runs_once_per_layer 2 initialCacheState (by decide)⟩

/-- Claim C4: the entailment input is the concatenation, in order, of exactly
the encoded question, the final current_memory, and the attended knowledge of
the last hop, for every configuration with at least one memory layer. -/
theorem entailment_input_uses_last_hop (N : Nat) (s0 : LayerCacheState) (hN : 1 ≤ N) :
    ∃ r rec, buildModel s0 N = some r ∧
      r.hops.getLast? = some rec ∧
      r.finalMemory = rec.memoryOut ∧
      r.entailmentInput =
        Tensor.entailmentConcat encodedQuestionT rec.memoryOut rec.attendedKnowledge := by
  unfold buildModel
  obtain ⟨rec, hs, hhops, hatt, hmem⟩ :=
    hopLoop_last encodedKnowledgeT N hN ⟨s0, encodedQuestionT, none, [], [], []⟩
  dsimp only
  rw [hatt]
  refine ⟨_, rec, rfl, ?_, ?_, ?_⟩
  · rw [hhops]
    simp
  · exact hmem
  · rw [hmem]

/-
  Cache-identity invariant for claim C3.  Reachable states are those the
  solver can be in: the empty caches from `__init__`, extended only through
  the two getters.  Every cached id is below the fresh counter and no id is
  cached under two hop indices.
-/

/-- A successful lookup comes from an entry of the association list. -/
theorem lookupCache_mem (cache : List (Nat × Nat)) (k v : Nat)
    (h : lookupCache cache k = some v) : (k, v) ∈ cache := by
  induction cache with
  | nil => simp [lookupCache] at h
  | cons p rest ih =>
      obtain ⟨pk, pv⟩ := p
      by_cases hk : pk = k
      · subst hk
        simp [lookupCache] at h
        subst h
        exact List.mem_cons_self _ _
      · simp [lookupCache, hk] at h
        exact List.mem_cons_of_mem _ (ih h)

/-- Looking up a key appended to a cache that does not contain it. -/
theorem lookupCache_append_self (cache : List (Nat × Nat)) (k v : Nat)
    (h : lookupCache cache k = none) :
    lookupCache (cache ++ [(k, v)]) k = some v := by
  induction cache with
  | nil => simp [lookupCache]
  | cons p rest ih =>
      rw [lookupCache] at h
      by_cases hk : p.1 = k
      · rw [if_pos hk] at h
        cases h
      · rw [if_neg hk] at h
        simpa [lookupCache, hk] using ih h

/-- Looking up another key ignores an appended binding. -/
theorem lookupCache_append_other (cache : List (Nat × Nat)) (k k2 v : Nat)
    (hne : k ≠ k2) :
    lookupCache (cache ++ [(k, v)]) k2 = lookupCache cache k2 := by
  induction cache with
  | nil => simp [lookupCache, hne]
  | cons p rest ih =>
      by_cases hk : p.1 = k2
      · simp [lookupCache, hk]
      · simpa [lookupCache, hk] using ih

/-- The selector getter preserves the cache invariant. -/
theorem getKnowledgeSelector_inv (s : LayerCacheState) (i : Nat)
    (h : CacheInv s) : CacheInv (getKnowledgeSelector s i).2 := by
  obtain ⟨h1, h2, h3, h4⟩ := h
  unfold getKnowledgeSelector
  cases hl : lookupCache s.knowledge_selector_layers i with
  | some v => exact ⟨h1, h2, h3, h4⟩
  | none =>
      refine ⟨?_, ?_, ?_, h4⟩
      · intro p hp
        rcases List.mem_append.mp hp with hp | hp
        · exact Nat.lt_succ_of_lt (h1 p hp)
        · simp at hp
          subst hp
          exact Nat.lt_succ_self _
      · intro p hp
        exact Nat.lt_succ_of_lt (h2 p hp)
      · intro p hp q hq hpq
        rcases List.mem_append.mp hp with hp | hp <;>
          rcases List.mem_append.mp hq with hq | hq
        · exact h3 p hp q hq hpq
        · simp at hq
          subst hq
          exact absurd hpq (Nat.ne_of_lt (h1 p hp))
        · simp at hp
          subst hp
          exact absurd hpq.symm (Nat.ne_of_lt (h1 q hq))
        · simp at hp hq
          subst hp
          subst hq
          rfl

/-- The updater getter preserves the cache invariant. -/
theorem getMemoryUpdater_inv (s : LayerCacheState) (i : Nat)
    (h : CacheInv s) : CacheInv (getMemoryUpdater s i).2 := by
  obtain ⟨h1, h2, h3, h4⟩ := h
  unfold getMemoryUpdater
  cases hl : lookupCache s.memory_updater_layers i with
  | some v => exact ⟨h1, h2, h3, h4⟩
  | none =>
      refine ⟨?_, ?_, h3, ?_⟩
      · intro p hp
        exact Nat.lt_succ_of_lt (h1 p hp)
      · intro p hp
        rcases List.mem_append.mp hp with hp | hp
        · exact Nat.lt_succ_of_lt (h2 p hp)
        · simp at hp
          subst hp
          exact Nat.lt_succ_self _
      · intro p hp q hq hpq
        rcases List.mem_append.mp hp with hp | hp <;>
          rcases List.mem_append.mp hq with hq | hq
        · exact h4 p hp q hq hpq
        · simp at hq
          subst hq
          exact absurd hpq (Nat.ne_of_lt (h2 p hp))
        · simp at hp
          subst hp
          exact absurd hpq.symm (Nat.ne_of_lt (h2 q hq))
        · simp at hp hq
          subst hp
          subst hq
          rfl

/-- Every reachable cache state satisfies the invariant. -/
theorem reachable_inv (s : LayerCacheState) (h : Reachable s) : CacheInv s := by
  induction h with
  | init =>
      refine ⟨?_, ?_, ?_, ?_⟩ <;> intro p hp <;> simp [initialCacheState] at hp
  | selectorStep s i _ ih => exact getKnowledgeSelector_inv s i ih
  | updaterStep s i _ ih => exact getMemoryUpdater_inv s i ih

/-- Claim C3: from any reachable cache state, requesting the selector (or
the updater) for one hop index twice returns the identical layer instance
and leaves the cache unchanged (so any number of repeated requests returns
that instance), while requesting two distinct hop indices returns two
different layer instances, for each component family. -/
theorem layer_cache_identity (s : LayerCacheState) (i j : Nat)
    (hs : Reachable s) (hne : i ≠ j) :
    (getKnowledgeSelector (getKnowledgeSelector s i).2 i).1 = (getKnowledgeSelector s i).1 ∧
    (getKnowledgeSelector (getKnowledgeSelector s i).2 i).2 = (getKnowledgeSelector s i).2 ∧
    (getMemoryUpdater (getMemoryUpdater s i).2 i).1 = (getMemoryUpdater s i).1 ∧
    (getMemoryUpdater (getMemoryUpdater s i).2 i).2 = (getMemoryUpdater s i).2 ∧
    (getKnowledgeSelector (getKnowledgeSelector s i).2 j).1 ≠ (getKnowledgeSelector s i).1 ∧
    (getMemoryUpdater (getMemoryUpdater s i).2 j).1 ≠ (getMemoryUpdater s i).1 := by
  obtain ⟨hb1, hb2, hinj1, hinj2⟩ := reachable_inv s hs
  refine ⟨?_, ?_, ?_, ?_, ?_, ?_⟩
  · cases hl : lookupCache s.knowledge_selector_layers i with
    | some v => simp [getKnowledgeSelector, hl]
    | none => simp [getKnowledgeSelector, hl, lookupCache_append_self _ _ _ hl]
  · cases hl : lookupCache s.knowledge_selector_layers i with
    | some v => simp [getKnowledgeSelector, hl]
    | none => simp [getKnowledgeSelector, hl, lookupCache_append_self _ _ _ hl]
  · cases hl : lookupCache s.memory_updater_layers i with
    | some v => simp [getMemoryUpdater, hl]
    | none => simp [getMemoryUpdater, hl, lookupCache_append_self _ _ _ hl]
  · cases hl : lookupCache s.memory_updater_layers i with
    | some v => simp [getMemoryUpdater, hl]
    | none => simp [getMemoryUpdater, hl, lookupCache_append_self _ _ _ hl]
  · cases hl : lookupCache s.knowledge_selector_layers i with
    | some v =>
        have hmemv := lookupCache_mem _ _ _ hl
        cases hl2 : lookupCache s.knowledge_selector_layers j with
        | some w =>
            have hmemw := lookupCache_mem _ _ _ hl2
            simp only [getKnowledgeSelector, hl, hl2]
            intro hwv
            exact hne (hinj1 (i, v) hmemv (j, w) hmemw hwv.symm)
        | none =>
            simp only [getKnowledgeSelector, hl, hl2]
            exact Nat.ne_of_gt (hb1 (i, v) hmemv)
    | none =>
        have hother := lookupCache_append_other s.knowledge_selector_layers i j s.nextId hne
        cases hl2 : lookupCache s.knowledge_selector_layers j with
        | some w =>
            have hmemw := lookupCache_mem _ _ _ hl2
            simp only [getKnowledgeSelector, hl]
            simp only [hother, hl2]
            exact Nat.ne_of_lt (hb1 (j, w) hmemw)
        | none =>
            simp only [getKnowledgeSelector, hl]
            simp only [hother, hl2]
            exact Nat.succ_ne_self s.nextId
  · cases hl : lookupCache s.memory_updater_layers i with
    | some v =>
        have hmemv := lookupCache_mem _ _ _ hl
        cases hl2 : lookupCache s.memory_updater_layers j with
        | some w =>
            have hmemw := lookupCache_mem _ _ _ hl2
            simp only [getMemoryUpdater, hl, hl2]
            intro hwv
            exact hne (hinj2 (i, v) hmemv (j, w) hmemw hwv.symm)
        | none =>
            simp only [getMemoryUpdater, hl, hl2]
            exact Nat.ne_of_gt (hb2 (i, v) hmemv)
    | none =>
        have hother := lookupCache_append_other s.memory_updater_layers i j s.nextId hne
        cases hl2 : lookupCache s.memory_updater_layers j with
        | some w =>
            have hmemw := lookupCache_mem _ _ _ hl2
            simp only [getMemoryUpdater, hl]
            simp only [hother, hl2]
            exact Nat.ne_of_lt (hb2 (j, w) hmemw)
        | none =>
            simp only [getMemoryUpdater, hl]
            simp only [hother, hl2]
            exact Nat.succ_ne_self s.nextId

/-- Concrete instantiation of the C3 theorem at hop indices 0 and 1 from the
initial cache state. -/
theorem layer_cache_identity_witness :
    (0 : Nat) ≠ 1 ∧
    ((getKnowledgeSelector (getKnowledgeSelector initialCacheState 0).2 0).1 =
        (getKnowledgeSelector initialCacheState 0).1 ∧
      (getKnowledgeSelector (getKnowledgeSelector initialCacheState 0).2 0).2 =
        (getKnowledgeSelector initialCacheState 0).2 ∧
      (getMemoryUpdater (getMemoryUpdater initialCacheState 0).2 0).1 =
        (getMemoryUpdater initialCacheState 0).1 ∧
      (getMemoryUpdater (getMemoryUpdater initialCacheState 0).2 0).2 =
        (getMemoryUpdater initialCacheState 0).2 ∧
      (getKnowledgeSelector (getKnowledgeSelector initialCacheState 0).2 1).1 ≠
        (getKnowledgeSelector initialCacheState 0).1 ∧
      (getMemoryUpdater (getMemoryUpdater initialCacheState 0).2 1).1 ≠
        (getMemoryUpdater initialCacheState 0).1) :=
  ⟨by decide, layer_cache_identity initialCacheState 0 1 Reachable.init (by decide)⟩

/-- Claim C5: a configuration naming a selector, updater, combiner, or
entailment-model key absent from its registry makes solver construction
fail with a KeyError, and no model graph is built for it. -/
theorem unknown_registry_key_fails_fast
    (selectors updaters combiners models : List (String × Nat)) (cfg : SolverConfig)
    (habs : lookupKey selectors cfg.knowledge_selector = none ∨
            lookupKey updaters cfg.memory_updater = none ∨
            lookupKey combiners cfg.entailment_input_combiner = none ∨
            lookupKey models cfg.entailment_model = none) :
    ∃ e, solverInit selectors updaters combiners models cfg = .error e ∧
         buildFromConfig selectors updaters combiners models cfg = .error e := by
  have hinit : ∃ e, solverInit selectors updaters combiners models cfg = .error e := by
    unfold solverInit
    cases h1 : lookupKey selectors cfg.knowledge_selector with
    | none => exact ⟨_, rfl⟩
    | some sel =>
      cases h2 : lookupKey updaters cfg.memory_updater with
      | none => exact ⟨_, rfl⟩
      | some upd =>
        cases h3 : lookupKey combiners cfg.entailment_input_combiner with
        | none => exact ⟨_, rfl⟩
        | some comb =>
          cases h4 : lookupKey models cfg.entailment_model with
          | none => exact ⟨_, rfl⟩
          | some em => rcases habs with h | h | h | h <;> simp_all
  obtain ⟨e, he⟩ := hinit
  refine ⟨e, he, ?_⟩
  unfold buildFromConfig
  rw [he]

/-- Concrete instantiation of the C5 theorem: the default registries with an
unknown selector name. -/
theorem unknown_registry_key_fails_fast_witness :
    (lookupKey ([("parameterized", 0), ("dot_product", 1)] : List (String × Nat))
        "nonexistent" = none) ∧
    ∃ e, solverInit [("parameterized", 0), ("dot_product", 1)] [("dense_concat", 0)]
          [("heuristic_matching", 0)] [("true_false_mlp", 0)]
          ⟨"nonexistent", false, "dense_concat", "heuristic_matching",
           "true_false_mlp", 1, 50, "relu", 1, 4⟩ = .error e ∧
        buildFromConfig [("parameterized", 0), ("dot_product", 1)] [("dense_concat", 0)]
          [("heuristic_matching", 0)] [("true_false_mlp", 0)]
          ⟨"nonexistent", false, "dense_concat", "heuristic_matching",
           "true_false_mlp", 1, 50, "relu", 1, 4⟩ = .error e :=
  ⟨by decide,
   unknown_registry_key_fails_fast [("parameterized", 0), ("dot_product", 1)]
     [("dense_concat", 0)] [("heuristic_matching", 0)] [("true_false_mlp", 0)]
     ⟨"nonexistent", false, "dense_concat", "heuristic_matching",
      "true_false_mlp", 1, 50, "relu", 1, 4⟩ (Or.inl (by decide))⟩

/-- The padding strip keeps a hop list whole when it is no longer than the
number of background sentences. -/
theorem pySliceLastM_of_le {α : Type} (m : Nat) (l : List α) (h : l.length ≤ m) :
    pySliceLastM m l = l := by
  unfold pySliceLastM
  by_cases hm : m = 0
  · simp [hm]
  · rw [if_neg hm]
    have hz : l.length - m = 0 := by omega
    simp [hz]

/-- A comprehension whose body never raises returns the full list. -/
theorem exceptMapList_ok_of_forall {β γ : Type} (f : β → Except String γ) (l : List β)
    (h : ∀ x ∈ l, ∃ y, f x = .ok y) :
    ∃ ys, exceptMapList f l = .ok ys ∧ ys.length = l.length := by
  induction l with
  | nil => exact ⟨[], rfl, rfl⟩
  | cons x xs ih =>
      obtain ⟨y, hy⟩ := h x (List.mem_cons_self _ _)
      obtain ⟨ys, hys, hlen⟩ := ih (fun z hz => h z (List.mem_cons_of_mem _ hz))
      exact ⟨y :: ys, by simp [exceptMapList, hy, hys], by simp [hlen]⟩

/-- When every hop records the same number a of attention values, the row
loop starting at index i emits a - i rows without raising, as long as at
least a - i background sentences remain. -/
theorem emitRowsFrom_ok {α : Type} (first : List α) (rest : List (List α)) (a : Nat)
    (hlen : ∀ v ∈ first :: rest, List.length v = a) :
    ∀ (bgs : List String) (i : Nat), a ≤ i + bgs.length →
      ∃ rows, emitRowsFrom (first :: rest) i bgs = .ok rows ∧ rows.length = a - i := by
  have hfirst : first.length = a := hlen first (List.mem_cons_self _ _)
  intro bgs
  induction bgs with
  | nil =>
      intro i hi
      simp only [List.length_nil, Nat.add_zero] at hi
      refine ⟨[], rfl, ?_⟩
      simp only [List.length_nil]
      omega
  | cons bg bgs ih =>
      intro i hi
      have hi2 : a ≤ (i + 1) + bgs.length := by
        simp only [List.length_cons] at hi
        omega
      have hpg : pyGet (first :: rest) 0 = Except.ok first := rfl
      by_cases hia : a ≤ i
      · refine ⟨[], ?_, ?_⟩
        · simp only [emitRowsFrom, hpg]
          rw [if_pos (show first.length ≤ i by omega)]
        · simp only [List.length_nil]
          omega
      · obtain ⟨rows, hrows, hrlen⟩ := ih (i + 1) hi2
        have hvals : ∀ v ∈ first :: rest, ∃ y, pyGet v i = Except.ok y := by
          intro v hv
          have hvl : List.length v = a := hlen v hv
          have hiv : i < List.length v := by omega
          exact ⟨v.get ⟨i, hiv⟩,
            by simp [pyGet, List.getElem?_eq_getElem hiv, List.get_eq_getElem]⟩
        obtain ⟨vals, hmap, _⟩ := exceptMapList_ok_of_forall
          (fun values => pyGet values i) (first :: rest) hvals
        refine ⟨⟨vals, bg⟩ :: rows, ?_, ?_⟩
        · simp only [emitRowsFrom, hpg]
          rw [if_neg (show ¬ first.length ≤ i by omega)]
          rw [hmap, hrows]
        · simp only [List.length_cons, hrlen]
          omega

/-- Claim C6: for an instance whose background sentence count exceeds the
per-hop count a of recorded attention values (equal across hops), the tracer
emits exactly a per-sentence rows and raises no error. -/
theorem trace_truncates_to_attention_count {α : Type} (inst : DebugInstance)
    (score : List α) (attention_values : List (List α)) (a : Nat) (p : α)
    (hscore : score.get? 1 = some p)
    (hne : attention_values ≠ [])
    (hlen : ∀ v ∈ attention_values, List.length v = a)
    (hlt : a < inst.background.length) :
    ∃ rec, debugInstanceRecord inst score attention_values = .ok rec ∧
      rec.rows.length = a := by
  obtain ⟨first, rest, rfl⟩ : ∃ f r, attention_values = f :: r := by
    cases attention_values with
    | nil => exact absurd rfl hne
    | cons f r => exact ⟨f, r, rfl⟩
  have hstrip : (first :: rest).map (pySliceLastM inst.background.length)
      = first :: rest := by
    have hid : ∀ v ∈ first :: rest,
        pySliceLastM inst.background.length v = id v := by
      intro v hv
      have := hlen v hv
      simpa using pySliceLastM_of_le _ _ (by omega)
    rw [List.map_congr_left hid, List.map_id]
  obtain ⟨rows, hrows, hrlen⟩ := emitRowsFrom_ok first rest a hlen
    inst.background 0 (by omega)
  refine ⟨⟨inst.text, inst.label, p, rows⟩, ?_, by simpa using hrlen⟩
  unfold debugInstanceRecord
  simp only [pyGet, hscore]
  rw [hstrip]
  unfold emitRows
  rw [hrows]

/-- Concrete instantiation of the C6 theorem: five background sentences and
three recorded attention values in a single hop yield exactly three rows. -/
theorem trace_truncates_to_attention_count_witness :
    (([4, 7] : List Nat).get? 1 = some 7) ∧
    (([[1, 2, 3]] : List (List Nat)) ≠ []) ∧
    (∀ v ∈ ([[1, 2, 3]] : List (List Nat)), List.length v = 3) ∧
    (3 < (["b1", "b2", "b3", "b4", "b5"] : List String).length) ∧
    ∃ rec, debugInstanceRecord ⟨"q", ["b1", "b2", "b3", "b4", "b5"], true⟩
        ([4, 7] : List Nat) [[1, 2, 3]] = .ok rec ∧ rec.rows.length = 3 :=
  ⟨by decide, by decide, by decide, by decide,
   trace_truncates_to_attention_count ⟨"q", ["b1", "b2", "b3", "b4", "b5"], true⟩
     [4, 7] [[1, 2, 3]] 3 7 (by decide) (by decide) (by decide) (by decide)⟩

/-- Claim C8 amended: the trace file handle is closed exactly when record
emission for every instance completes without an exception; an exception
partway through propagates past the close statement, leaving the handle
open. -/
theorem debug_closes_handle_iff_ok {α : Type} (instances : List DebugInstance)
    (scores : List (List α)) (attention_outputs : List (List (List α))) :
    (debugRun instances scores attention_outputs).file_closed =
      isOkB (debugRun instances scores attention_outputs).outcome := by
  unfold debugRun
  cases exceptMapList (fun t => debugInstanceRecord t.1 t.2.1 t.2.2)
      (pyZipStar instances scores attention_outputs) with
  | ok records => rfl
  | error e => rfl

/-- Claim C8 counterexample: a concrete debug invocation in which record
emission raises (single-class score vector) terminates with the file handle
still open, so the handle is not released on every execution path. -/
theorem debug_handle_leak_cex :
    (debugRun (α := Nat) [⟨"q", ["b"], true⟩] [[5]] [[[9]]]).file_closed = false ∧
    isOkB (debugRun (α := Nat) [⟨"q", ["b"], true⟩] [[5]] [[[9]]]).outcome = false := by
  decide

/-- Claim C9 counterexample: the custom-objects mapping used for model
reload contains no entry of the memory-updater family, so it does not
resolve the updater component types. -/
theorem custom_objects_lack_updaters :
    getCustomObjects.any (fun p => isMemoryUpdaterType p.2) = false := by decide

/-- Claim C9 amended: the custom-objects mapping resolves the two
knowledge-selector classes as named custom types, and registers no
memory-updater type. -/
theorem custom_objects_selectors_only :
    lookupKey getCustomObjects "DotProductKnowledgeSelector"
      = some ComponentType.dotProductKnowledgeSelector ∧
    lookupKey getCustomObjects "ParameterizedKnowledgeSelector"
      = some ComponentType.parameterizedKnowledgeSelector ∧
    getCustomObjects.all (fun p => !isMemoryUpdaterType p.2) = true := by decide

/-- Claim C10: every record the tracer emits carries as assigned score the
element at index 1 of the score vector, and a score vector with fewer than
two classes makes the tracer raise an IndexError instead. -/
theorem assigned_score_is_second_class {α : Type} (inst : DebugInstance)
    (score : List α) (attention_values : List (List α)) :
    (∀ rec, debugInstanceRecord inst score attention_values = .ok rec →
        score.get? 1 = some rec.assigned_score) ∧
    (score.length < 2 →
        ∃ e, debugInstanceRecord inst score attention_values = .error e) := by
  constructor
  · intro rec hrec
    unfold debugInstanceRecord at hrec
    cases hg : score.get? 1 with
    | none =>
        rw [show pyGet score 1 = Except.error "IndexError" by
              simp only [pyGet, List.get?_eq_getElem?] at hg ⊢
              rw [hg]] at hrec
        simp at hrec
    | some v =>
        rw [show pyGet score 1 = Except.ok v by
              simp only [pyGet, List.get?_eq_getElem?] at hg ⊢
              rw [hg]] at hrec
        cases hr : emitRows inst.background
            (attention_values.map (pySliceLastM inst.background.length)) with
        | error e =>
            rw [hr] at hrec
            simp at hrec
        | ok rows =>
            rw [hr] at hrec
            have hrec2 : InstanceTraceRecord.mk inst.text inst.label v rows = rec := by
              simpa using hrec
            rw [← hrec2]
  · intro hlen
    have hg : score.get? 1 = none := by
      rw [List.get?_eq_none]
      omega
    unfold debugInstanceRecord
    simp only [pyGet, hg]
    exact ⟨_, rfl⟩

/-- Concrete instantiation of the C10 theorem: a two-class score vector
yields its second entry as the assigned score, and a one-class score vector
raises. -/
theorem assigned_score_is_second_class_witness :
    (([4, 7] : List Nat).get? 1 =
      some (InstanceTraceRecord.assigned_score ⟨"q", true, 7, [⟨[9], "b"⟩]⟩)) ∧
    (∃ e, debugInstanceRecord (α := Nat) ⟨"q", ["b"], true⟩ [5] [[9]] = .error e) :=
  ⟨(assigned_score_is_second_class ⟨"q", ["b"], true⟩ [4, 7] [[9]]).1
      ⟨"q", true, 7, [⟨[9], "b"⟩]⟩ (by rfl),
   (assigned_score_is_second_class ⟨"q", ["b"], true⟩ [5] [[9]]).2 (by decide)⟩

/-- Concrete instantiation of the C4 theorem at N = 2 from the initial
cache state. -/
theorem entailment_input_uses_last_hop_witness :
    1 ≤ 2 ∧
    ∃ r rec, buildModel initialCacheState 2 = some r ∧
      r.hops.getLast? = some rec ∧
      r.finalMemory = rec.memoryOut ∧
      r.entailmentInput =
        Tensor.entailmentConcat encodedQuestionT rec.memoryOut rec.attendedKnowledge :=
  ⟨by decide, entailment_input_uses_last_hop 2 initialCacheState (by decide)⟩

end MemoryNetwork
